import Mathlib

/-!
# Verification of the `symbtools.meshtools` adaptive mesh-refinement engine

The repository ships the test suite `symbtools/test/test_meshtools.py` for its
mesh-refinement engine `symbtools.meshtools` (classes `NodeDataBase`, `Cell`,
`Grid` and the boundary function `func_circle`), but the module
`symbtools/meshtools.py` itself is not part of the source tree.  All engine
definitions below are therefore modelled from the specification (sections 3, 4,
7 and 8), with the concrete expected values of the in-tree test suite as the
arbiter whenever the specification leaves a choice open.

Coordinates produced by the engine arise from integer grid coordinates by
repeated exact midpoint halving, so every coordinate is a dyadic rational and
IEEE-754 doubles represent all of them exactly; the specification notes that
coordinate comparison is exact for this reason.  We embed coordinates as exact
dyadic rationals (`Dy`), which coincides with the floating-point behaviour of
the Python code on every value the engine ever produces.
-/

set_option maxRecDepth 10000

namespace Meshtools

/-- A dyadic rational `num / 2 ^ exp`, the exact value of every coordinate the
mesh-refinement engine produces.  Kept in canonical form (odd numerator or
zero exponent) so that structural equality coincides with value equality. -/
structure Dy where
  num : Int
  exp : Nat
deriving DecidableEq, Repr

/-- Canonical form of `n / 2 ^ e`: divide out factors of two. -/
def Dy.canon : Int → Nat → Dy
  | n, 0 => ⟨n, 0⟩
  | n, e + 1 => if n % 2 = 0 then Dy.canon (n / 2) e else ⟨n, e + 1⟩

/-- The dyadic rational with integer value `n`. -/
def Dy.ofInt (n : Int) : Dy := ⟨n, 0⟩

/-- Exact midpoint `(a + b) / 2` of two dyadic rationals; this is the
midpoint arithmetic by which `make_childs` produces child-cell corners. -/
def Dy.mid (a b : Dy) : Dy :=
  let e := max a.exp b.exp
  Dy.canon (a.num * 2 ^ (e - a.exp) + b.num * 2 ^ (e - b.exp)) (e + 1)

/-- The rational value of a dyadic coordinate. -/
def Dy.toRat (a : Dy) : Rat := (a.num : Rat) / ((2 : Rat) ^ a.exp)

/-- Modelled from the spec: a mesh `Node` — a point in D-dimensional space
with the refinement level at which it was created and an optional
classification (the sign of the boundary function, set by `apply_func`;
`none` while unclassified). -/
structure Node where
  coords : List Dy
  level : Nat
  klass : Option Int
deriving DecidableEq, Repr

/-- Modelled from the spec: the `NodeDataBase` of `symbtools.meshtools`
(absent from the source tree).  `nodes` is the arena of all nodes in creation
order (a node handle is an index into it), `index` the coordinate-keyed
deduplication map, and `levels` records, per refinement level, the handles of
the nodes first created at that level (the test suite's
`len(ndb.levels[1]) == 5` shows that lookup is by coordinate across levels
and `levels[L]` holds only the nodes newly created at level `L`). -/
structure NodeDataBase where
  nodes : List Node
  index : List (List Dy × Nat)
  levels : List (List Nat)
deriving DecidableEq, Repr

/-- The empty node database. -/
def NodeDataBase.empty : NodeDataBase := ⟨[], [], []⟩

/-- Coordinate lookup in the deduplication map (exact equality, as the
specification prescribes for midpoint-generated coordinates). -/
def lookupCoords : List (List Dy × Nat) → List Dy → Option Nat
  | [], _ => none
  | (c, n) :: rest, key => if c = key then some n else lookupCoords rest key

/-- Append a node handle to the bucket of `level`, growing the per-level list
as needed. -/
def addToLevel : List (List Nat) → Nat → Nat → List (List Nat)
  | [], 0, n => [[n]]
  | [], l + 1, n => [] :: addToLevel [] l n
  | b :: bs, 0, n => (b ++ [n]) :: bs
  | b :: bs, l + 1, n => b :: addToLevel bs l n

/-- Modelled from the spec: `NodeDataBase.register_or_get(coords, level)` —
look up an existing node whose coordinates match exactly; if found return its
handle, otherwise create, store and return a new unclassified node recorded
at `level`.  Returns the node handle together with the updated database. -/
def NodeDataBase.register_or_get (db : NodeDataBase) (coords : List Dy)
    (level : Nat) : Nat × NodeDataBase :=
  match lookupCoords db.index coords with
  | some nid => (nid, db)
  | none =>
    let nid := db.nodes.length
    (nid, { nodes := db.nodes ++ [⟨coords, level, none⟩],
            index := (coords, nid) :: db.index,
            levels := addToLevel db.levels level nid })

/-- Modelled from the spec: `NodeDataBase.apply_func(f)` — apply the scalar
boundary function to every node not yet classified and store the sign of its
value as the node's classification; already-classified nodes are untouched. -/
def NodeDataBase.apply_func (db : NodeDataBase) (f : List Dy → Int) :
    NodeDataBase :=
  { db with nodes := db.nodes.map fun nd =>
      match nd.klass with
      | some _ => nd
      | none => { nd with klass := some (f nd.coords) } }

/-- Modelled from the spec: a mesh `Cell` — an axis-aligned hyper-rectangular
region at a refinement level, defined by its `2 ^ D` corner nodes in the fixed
hypercube bit-pattern order (vertex `i` takes, in dimension `k`, the min or
max bound according to bit `k` of `i`, the first dimension being the most
significant bit), with parent/child tree links.  Cells live in the `Grid`'s
arena and reference each other and their corner nodes by index. -/
structure Cell where
  level : Nat
  vertex_nodes : List Nat
  parent_cell : Option Nat
  child_cells : List Nat
deriving DecidableEq, Inhabited, Repr

/-- Default node, used only as the out-of-range fallback of index lookups. -/
instance : Inhabited Node := ⟨⟨[], 0, none⟩⟩

/-- A freshly created cell at level `lvl` with parent `parent` and corner
handles `vs` (children are attached later by `make_childs`). -/
def mkLevelCell (lvl : Nat) (parent : Option Nat) (vs : List Nat) : Cell :=
  { level := lvl, vertex_nodes := vs, parent_cell := parent,
    child_cells := [] }

/-- The hypercube vertex offsets for dimension `D`, in the fixed bit-pattern
order: offset `i` has, in dimension `k`, bit `D - 1 - k` of `i`. -/
def voffs (D : Nat) : List (List Nat) :=
  (List.range (2 ^ D)).map fun i =>
    (List.range D).map fun k => i / 2 ^ (D - 1 - k) % 2

/-- The fixed list of corner-index pairs forming the edges of a
`D`-dimensional hypercube cell: pairs of vertices differing in exactly one
bit, smaller index first. -/
def hypercubeEdgePairs (D : Nat) : List (Nat × Nat) :=
  (List.range (2 ^ D)).flatMap fun i =>
    ((List.range D).map fun k => i ^^^ 2 ^ k).filterMap fun j =>
      if i < j then some (i, j) else none

/-- Modelled from the spec: the `Grid` of `symbtools.meshtools` (absent from
the source tree).  Owns the node database, the flat arena of all cells in
creation order, the per-level index of cell handles, the per-level index of
cells found inhomogeneous by the last classification pass, and the highest
level for which cells exist. -/
structure Grid where
  dim : Nat
  ndb : NodeDataBase
  cells : List Cell
  levels : List (List Nat)
  max_level : Nat
  inhomogeneous_cells : List (List Nat)
  idx_edge_pairs : List (Nat × Nat)
deriving Repr

/-- State-threading map: apply `f` left to right, collecting results and the
final state. -/
def mapThread (f : σ → α → β × σ) : σ → List α → List β × σ
  | s, [] => ([], s)
  | s, a :: as =>
    let p := f s a
    let q := mapThread f p.2 as
    (p.1 :: q.1, q.2)

/-- All index tuples of a structured grid window sweep, first axis slowest
(the "ij" indexing convention). -/
def cartProd : List (List Nat) → List (List Nat)
  | [] => [[]]
  | xs :: rest => xs.flatMap fun x => (cartProd rest).map fun t => x :: t

/-- The corner of the structured-grid window at index tuple `idx` with vertex
offset `off`: coordinate `k` is entry `idx k + off k` of axis `k`. -/
def windowCorner (axes : List (List Dy)) (idx off : List Nat) : List Dy :=
  (axes.zip (idx.zip off)).map fun t => t.1.getD (t.2.1 + t.2.2) (Dy.ofInt 0)

/-- Modelled from the spec: `Grid` construction from a structured coordinate
mesh given by one coordinate array per axis.  Slides a `2 ^ D`-corner window
across every adjacent group of grid indices, registering each corner in the
node database at level 0 and creating one level-0 cell per window. -/
def Grid.construct (axes : List (List Dy)) : Grid :=
  let D := axes.length
  let windows := cartProd (axes.map fun a => List.range (a.length - 1))
  let reg := mapThread (fun db idx =>
      mapThread (fun (db2 : NodeDataBase) off =>
          db2.register_or_get (windowCorner axes idx off) 0)
        db (voffs D))
    NodeDataBase.empty windows
  let cells := reg.1.map (mkLevelCell 0 none)
  { dim := D, ndb := reg.2, cells := cells,
    levels := [List.range cells.length], max_level := 0,
    inhomogeneous_cells := [], idx_edge_pairs := hypercubeEdgePairs D }

/-- Child-corner coordinate in one dimension: the parent's min bound, the
exact midpoint, or the parent's max bound according to the sum of the child
offset and vertex offset (the convex-combination formula
`min + (joff + ioff) / 2 * (max - min)` of the specification). -/
def cornerCoord (mn mx : Dy) : Nat → Dy
  | 0 => mn
  | 1 => Dy.mid mn mx
  | _ => mx

/-- The corner with vertex offset `ioff` of the child with offset `joff` of a
cell with min corner `mins` and max corner `maxs`. -/
def childCorner (mins maxs : List Dy) (joff ioff : List Nat) : List Dy :=
  ((mins.zip maxs).zip (List.zipWith (fun a b => a + b) joff ioff)).map
    fun t => cornerCoord t.1.1 t.1.2 t.2

/-- The ordered corner coordinates of the cell with handle `cidx`
(`Cell.get_vertex_coords()`). -/
def Grid.get_vertex_coords (g : Grid) (cidx : Nat) : List (List Dy) :=
  (g.cells.getD cidx default).vertex_nodes.map fun nid =>
    (g.ndb.nodes.getD nid default).coords

/-- The min corner (vertex 0) of the cell with handle `cidx`. -/
def Grid.cellMins (g : Grid) (cidx : Nat) : List Dy :=
  (g.get_vertex_coords cidx).getD 0 []

/-- The max corner (vertex `2 ^ D - 1`) of the cell with handle `cidx`. -/
def Grid.cellMaxs (g : Grid) (cidx : Nat) : List Dy :=
  (g.get_vertex_coords cidx).getD (2 ^ g.dim - 1) []

/-- Modelled from the spec: `Cell.make_childs()` for the cell with handle
`cidx` — for each of the `2 ^ D` sub-cells, compute its `2 ^ D` corner
coordinates as midpoint convex combinations of the parent's corners, register
or look up each in the node database at `level + 1`, create the child cells
(recording the parent handle), record them in the parent's `child_cells`, the
grid's per-level index and the flat cell list, and return their handles. -/
def Grid.make_childs (g : Grid) (cidx : Nat) : List Nat × Grid :=
  let cell := g.cells.getD cidx default
  let D := g.dim
  let lvl := cell.level + 1
  let mins := g.cellMins cidx
  let maxs := g.cellMaxs cidx
  let reg := mapThread (fun db joff =>
      mapThread (fun (db2 : NodeDataBase) ioff =>
          db2.register_or_get (childCorner mins maxs joff ioff) lvl)
        db (voffs D))
    g.ndb (voffs D)
  let base := g.cells.length
  let childIds := (List.range reg.1.length).map fun j => base + j
  let newCells := reg.1.map (mkLevelCell lvl (some cidx))
  let cells2 := g.cells.set cidx { cell with child_cells := childIds }
    ++ newCells
  let levels2 := childIds.foldl (fun ls cid => addToLevel ls lvl cid) g.levels
  (childIds, { g with ndb := reg.2, cells := cells2, levels := levels2 })

/-- The classification stored for the node with handle `nid`. -/
def Grid.nodeKlass (g : Grid) (nid : Nat) : Option Int :=
  (g.ndb.nodes.getD nid default).klass

/-- A cell straddles the boundary when its corner nodes do not all carry the
same classification. -/
def Grid.cellInhomogeneous (g : Grid) (c : Cell) : Bool :=
  match c.vertex_nodes.map fun nid => g.nodeKlass nid with
  | [] => false
  | k :: rest => rest.any fun k2 => decide (k2 ≠ k)

/-- Modelled from the spec: `Grid.classify_cells_by_homogenity()` — inspect
the corner-node classifications of every cell at every level and record, per
level, the ordered subsequence of cells found inhomogeneous. -/
def Grid.classify_cells_by_homogenity (g : Grid) : Grid :=
  { g with inhomogeneous_cells := g.levels.map fun bucket =>
      bucket.filter fun cid => g.cellInhomogeneous (g.cells.getD cid default) }

/-- Modelled from the spec: `Grid.divide_boundary_cells()` — subdivide every
cell flagged inhomogeneous at the current maximum level and increment
`max_level` by one. -/
def Grid.divide_boundary_cells (g : Grid) : Grid :=
  let ids := g.inhomogeneous_cells.getD g.max_level []
  let g2 := ids.foldl (fun acc cid => (acc.make_childs cid).2) g
  { g2 with max_level := g.max_level + 1 }

/-- A node is a boundary node when it is a corner of some cell flagged
inhomogeneous by the last classification pass. -/
def Grid.markedBoundary (g : Grid) (nid : Nat) : Bool :=
  g.inhomogeneous_cells.any fun bucket => bucket.any fun cid =>
    (g.cells.getD cid default).vertex_nodes.contains nid

/-- Modelled from the spec: the boundary point sets of the node database —
the coordinates of the nodes created at the current maximum level that carry
classification `s` and lie on a cell flagged inhomogeneous. -/
def Grid.boundaryPoints (g : Grid) (s : Int) : List (List Dy) :=
  ((g.ndb.levels.getD g.max_level []).filter fun nid =>
      g.nodeKlass nid == some s && g.markedBoundary nid).map fun nid =>
    (g.ndb.nodes.getD nid default).coords

/-- Modelled from the spec: `NodeDataBase.get_inner_boundary()` — the inner
(negative-classification) boundary points. -/
def Grid.get_inner_boundary (g : Grid) : List (List Dy) :=
  g.boundaryPoints (-1)

/-- Modelled from the spec: `NodeDataBase.get_outer_boundary()` — the outer
(positive-classification) boundary points. -/
def Grid.get_outer_boundary (g : Grid) : List (List Dy) :=
  g.boundaryPoints 1

/-- Modelled from the spec: the circular boundary function `func_circle` of
`symbtools.meshtools` (absent from the source tree) — the sign of
`x0 ^ 2 + x1 ^ 2 - 13 / 10`, computed exactly on dyadic coordinates.  The
radius `sqrt(13/10)` is the one consistent with every boundary count the
in-tree test suite asserts. -/
def func_circle (c : List Dy) : Int :=
  let e := c.foldl (fun m a => max m a.exp) 0
  let s := c.foldl (fun acc a => acc + (a.num * 2 ^ (e - a.exp)) ^ 2) 0
  Int.sign (10 * s - 13 * 4 ^ e)

/-- Registering a list of coordinate vectors in sequence at one level; both
`Grid.construct` and `Grid.make_childs` are instances of this pattern. -/
def registerList (db : NodeDataBase) (lvl : Nat) (cs : List (List Dy)) :
    List Nat × NodeDataBase :=
  mapThread (fun d c => d.register_or_get c lvl) db cs

/-- How many genuinely new nodes a sequence of registrations creates, given
`pres` deciding which coordinates are already present and `acc` the
coordinates inserted so far. -/
def countNew (pres : List Dy → Bool) :
    List (List Dy) → List (List Dy) → Nat
  | [], _ => 0
  | c :: cs, acc =>
    if pres c || acc.contains c then countNew pres cs acc
    else countNew pres cs (c :: acc) + 1

/-- The flattened sequence of corner registrations performed by
`Grid.make_childs`, child by child. -/
def allChildCoords (D : Nat) (mins maxs : List Dy) : List (List Dy) :=
  (voffs D).flatMap fun joff => (voffs D).map fun ioff =>
    childCorner mins maxs joff ioff

/-- The flattened sequence of corner registrations performed by
`Grid.construct`, window by window. -/
def allWindowCoords (axes : List (List Dy)) : List (List Dy) :=
  (cartProd (axes.map fun a => List.range (a.length - 1))).flatMap fun idx =>
    (voffs axes.length).map fun off => windowCorner axes idx off

/-- Every coordinate key of the deduplication map satisfies `P`. -/
def AllKeysP (P : List Dy → Prop) (db : NodeDataBase) : Prop :=
  ∀ p ∈ db.index, P p.1

/-- Consistency of the deduplication map with the node arena: every key maps
to a valid handle whose node carries exactly that coordinate vector. -/
def NodeInv (db : NodeDataBase) : Prop :=
  ∀ p ∈ db.index, p.2 < db.nodes.length
    ∧ (db.nodes.getD p.2 default).coords = p.1

/-- The coordinate array `linspace(-4, 4, 9)` used by the test grids. -/
def axis9 : List Dy := (List.range 9).map fun i => Dy.ofInt (-4 + i)

/-- The axes of the 2D 9-by-9 structured test mesh: `linspace(-4, 4, 9)` on
both axes, combined with "ij" indexing. -/
def axes2 : List (List Dy) := [axis9, axis9]

/-- The axes of the 3D 9-by-9-by-9 structured test mesh. -/
def axes3 : List (List Dy) := [axis9, axis9, axis9]

/-- The 2D 9-by-9 structured test grid. -/
def grid2d : Grid := Grid.construct axes2

/-- The 3D 9-by-9-by-9 structured test grid. -/
def grid3d : Grid := Grid.construct axes3

/-- Every coordinate of the vector is a dyadic rational with exponent at most
`B`; the coordinates created up to refinement level `B` all satisfy this. -/
def expBound (B : Nat) (c : List Dy) : Bool :=
  c.all fun a => a.exp ≤ B

/-- Apply the boundary function to the grid's node database
(`grid.ndb.apply_func(f)` in the test suite's usage). -/
def Grid.applyFunc (g : Grid) (f : List Dy → Int) : Grid :=
  { g with ndb := g.ndb.apply_func f }

/-- Modelled from the spec: the error condition raised on malformed mesh
input. -/
inductive GridError where
  | InvalidGridInput
deriving DecidableEq, Repr

/-- Modelled from the spec: validity of a structured-mesh input — the
coordinate arrays must have matching lengths and every axis at least two
points. -/
def validMeshInput (axes : List (List Dy)) : Bool :=
  axes.all (fun a => decide (2 ≤ a.length))
    && axes.all fun a => a.length = (axes.headD []).length

/-- Modelled from the spec: `Grid` construction with input validation — a
malformed mesh (non-matching array lengths, or an axis with fewer than two
points) fails with `InvalidGridInput` instead of building a grid. -/
def Grid.construct_checked (axes : List (List Dy)) : Except GridError Grid :=
  if validMeshInput axes then .ok (Grid.construct axes)
  else .error GridError.InvalidGridInput

/-- The 2D test grid after applying the circular boundary function and
classifying cells by homogeneity (round 0 of the refinement test). -/
def refined0 : Grid :=
  (grid2d.applyFunc func_circle).classify_cells_by_homogenity

/-- Round 1 of the refinement test: subdivide the boundary cells, re-apply
the boundary function to the new nodes and re-classify. -/
def refined1 : Grid :=
  ((refined0.divide_boundary_cells).applyFunc
    func_circle).classify_cells_by_homogenity

end Meshtools

namespace Meshtools

/-! ## Structural lemmas about the state-threading combinators -/

lemma mapThread_nil {f : σ → α → β × σ} {s : σ} : mapThread f s [] = ([], s) :=
  rfl

lemma mapThread_cons {f : σ → α → β × σ} {s : σ} {a : α} {l : List α} :
    mapThread f s (a :: l)
      = ((f s a).1 :: (mapThread f (f s a).2 l).1,
         (mapThread f (f s a).2 l).2) :=
  rfl

lemma mapThread_fst_length {f : σ → α → β × σ} {s : σ} {l : List α} :
    (mapThread f s l).1.length = l.length := by
  induction l generalizing s with
  | nil => rfl
  | cons a as ih => simp [mapThread_cons, ih]

lemma mapThread_append {f : σ → α → β × σ} {s : σ} {l₁ l₂ : List α} :
    mapThread f s (l₁ ++ l₂)
      = ((mapThread f s l₁).1 ++ (mapThread f (mapThread f s l₁).2 l₂).1,
         (mapThread f (mapThread f s l₁).2 l₂).2) := by
  induction l₁ generalizing s with
  | nil => simp [mapThread_nil]
  | cons a as ih => simp [mapThread_cons, ih]

lemma mapThread_comp {h : σ → γ → β × σ} {g : α → γ} {s : σ} {l : List α} :
    mapThread (fun s a => h s (g a)) s l = mapThread h s (l.map g) := by
  induction l generalizing s with
  | nil => rfl
  | cons a as ih => simp [mapThread_cons, ih]

lemma mapThread_nested_snd {h : σ → γ → β × σ} {m : α → List γ} {s : σ}
    {l : List α} :
    (mapThread (fun s a => mapThread h s (m a)) s l).2
      = (mapThread h s (l.flatMap m)).2 := by
  induction l generalizing s with
  | nil => rfl
  | cons a as ih => simp [mapThread_cons, mapThread_append, ih]

lemma addToLevel_getD_same : ∀ (ls : List (List Nat)) (l n : Nat),
    (addToLevel ls l n).getD l [] = ls.getD l [] ++ [n] := by
  intro ls l
  induction l generalizing ls with
  | zero => intro n; cases ls <;> rfl
  | succ l ih =>
    intro n
    cases ls with
    | nil => exact ih [] n
    | cons b bs => exact ih bs n

lemma addToLevel_getD_ne : ∀ (ls : List (List Nat)) (l n k : Nat), k ≠ l →
    (addToLevel ls l n).getD k [] = ls.getD k [] := by
  intro ls l
  induction l generalizing ls with
  | zero =>
    intro n k h
    cases ls with
    | nil => cases k with
      | zero => exact absurd rfl h
      | succ k => rfl
    | cons b bs => cases k with
      | zero => exact absurd rfl h
      | succ k => rfl
  | succ l ih =>
    intro n k h
    cases ls with
    | nil => cases k with
      | zero => rfl
      | succ k => exact ih [] n k (by omega)
    | cons b bs => cases k with
      | zero => rfl
      | succ k => exact ih bs n k (by omega)

/-! ## Lemmas about coordinate lookup and `register_or_get` -/

lemma lookupCoords_some_mem {l : List (List Dy × Nat)} {k : List Dy} {i : Nat}
    (h : lookupCoords l k = some i) : (k, i) ∈ l := by
  induction l with
  | nil => simp [lookupCoords] at h
  | cons p rest ih =>
    obtain ⟨c, n⟩ := p
    by_cases hc : c = k
    · subst hc
      simp [lookupCoords] at h
      simp [h]
    · simp [lookupCoords, hc] at h
      exact List.mem_cons_of_mem _ (ih h)

lemma register_nodes_grow (db : NodeDataBase) (c : List Dy) (lvl : Nat) :
    db.nodes <+: (db.register_or_get c lvl).2.nodes := by
  unfold NodeDataBase.register_or_get
  cases h : lookupCoords db.index c with
  | some nid => simp
  | none => simp

lemma register_lookup_mono {db : NodeDataBase} {k : List Dy} {i : Nat}
    (c : List Dy) (lvl : Nat) (h : lookupCoords db.index k = some i) :
    lookupCoords (db.register_or_get c lvl).2.index k = some i := by
  unfold NodeDataBase.register_or_get
  cases hc : lookupCoords db.index c with
  | some nid => simpa using h
  | none =>
    by_cases hck : c = k
    · subst hck
      rw [h] at hc
      exact absurd hc (by simp)
    · simpa [lookupCoords, hck] using h

lemma register_lookup_self (db : NodeDataBase) (c : List Dy) (lvl : Nat) :
    lookupCoords (db.register_or_get c lvl).2.index c
      = some (db.register_or_get c lvl).1 := by
  unfold NodeDataBase.register_or_get
  cases hc : lookupCoords db.index c with
  | some nid => simpa using hc
  | none => simp [lookupCoords]

lemma register_allKeys {P : List Dy → Prop} {db : NodeDataBase}
    {c : List Dy} {lvl : Nat} (hP : AllKeysP P db) (hc : P c) :
    AllKeysP P (db.register_or_get c lvl).2 := by
  unfold NodeDataBase.register_or_get
  cases h : lookupCoords db.index c with
  | some nid => simpa using hP
  | none =>
    intro p hp
    simp at hp
    rcases hp with hp | hp
    · rw [hp]; exact hc
    · exact hP p hp

lemma lookup_none_of_allKeys {P : List Dy → Prop} {db : NodeDataBase}
    {k : List Dy} (hP : AllKeysP P db) (hk : ¬ P k) :
    lookupCoords db.index k = none := by
  cases h : lookupCoords db.index k with
  | none => rfl
  | some i => exact absurd (hP _ (lookupCoords_some_mem h)) hk

lemma register_inv {db : NodeDataBase} {c : List Dy} {lvl : Nat}
    (h : NodeInv db) : NodeInv (db.register_or_get c lvl).2 := by
  unfold NodeDataBase.register_or_get
  cases hc : lookupCoords db.index c with
  | some nid => simpa using h
  | none =>
    intro p hp
    simp at hp
    rcases hp with hp | hp
    · rw [hp]
      refine ⟨by simp, ?_⟩
      simp [List.getD_eq_getElem?_getD, List.getElem?_append_right]
    · obtain ⟨h1, h2⟩ := h p hp
      refine ⟨by simp; omega, ?_⟩
      rw [← h2]
      simp [List.getD_eq_getElem?_getD, List.getElem?_append, h1]

lemma register_fst_spec {db : NodeDataBase} {c : List Dy} {lvl : Nat}
    (h : NodeInv db) :
    (db.register_or_get c lvl).1 < (db.register_or_get c lvl).2.nodes.length
      ∧ ((db.register_or_get c lvl).2.nodes.getD
          (db.register_or_get c lvl).1 default).coords = c := by
  unfold NodeDataBase.register_or_get
  cases hc : lookupCoords db.index c with
  | some nid =>
    obtain ⟨h1, h2⟩ := h _ (lookupCoords_some_mem hc)
    exact ⟨h1, h2⟩
  | none =>
    refine ⟨by simp, ?_⟩
    simp [List.getD_eq_getElem?_getD, List.getElem?_append_right]

lemma register_levels_same {db : NodeDataBase} {c : List Dy} {lvl : Nat} :
    (((db.register_or_get c lvl).2.levels.getD lvl []).length)
      = (db.levels.getD lvl []).length
        + (if lookupCoords db.index c = none then 1 else 0) := by
  simp only [NodeDataBase.register_or_get]
  cases hc : lookupCoords db.index c with
  | some nid => simp
  | none =>
    rw [if_pos rfl]
    show ((addToLevel db.levels lvl db.nodes.length).getD lvl []).length = _
    rw [addToLevel_getD_same]
    simp

lemma register_levels_ne {db : NodeDataBase} {c : List Dy} {lvl k : Nat}
    (h : k ≠ lvl) :
    (db.register_or_get c lvl).2.levels.getD k []
      = db.levels.getD k [] := by
  simp only [NodeDataBase.register_or_get]
  cases hc : lookupCoords db.index c with
  | some nid => simp
  | none =>
    show (addToLevel db.levels lvl db.nodes.length).getD k [] = _
    exact addToLevel_getD_ne _ _ _ _ h

/-! ## Lemmas about sequences of registrations -/

lemma registerList_nil {db : NodeDataBase} {lvl : Nat} :
    registerList db lvl [] = ([], db) :=
  rfl

lemma registerList_cons {db : NodeDataBase} {lvl : Nat} {c : List Dy}
    {cs : List (List Dy)} :
    registerList db lvl (c :: cs)
      = ((db.register_or_get c lvl).1
          :: (registerList (db.register_or_get c lvl).2 lvl cs).1,
         (registerList (db.register_or_get c lvl).2 lvl cs).2) :=
  rfl

lemma registerList_append {db : NodeDataBase} {lvl : Nat}
    {cs₁ cs₂ : List (List Dy)} :
    registerList db lvl (cs₁ ++ cs₂)
      = ((registerList db lvl cs₁).1
          ++ (registerList (registerList db lvl cs₁).2 lvl cs₂).1,
         (registerList (registerList db lvl cs₁).2 lvl cs₂).2) :=
  mapThread_append

lemma registerList_lookup_mono {db : NodeDataBase} {lvl : Nat}
    {cs : List (List Dy)} {k : List Dy} {i : Nat}
    (h : lookupCoords db.index k = some i) :
    lookupCoords (registerList db lvl cs).2.index k = some i := by
  induction cs generalizing db with
  | nil => exact h
  | cons c cs ih => exact ih (register_lookup_mono c lvl h)

lemma registerList_present {db : NodeDataBase} {lvl : Nat}
    {cs : List (List Dy)} {c : List Dy} (hc : c ∈ cs) :
    ∃ i, lookupCoords (registerList db lvl cs).2.index c = some i := by
  induction cs generalizing db with
  | nil => cases hc
  | cons a cs ih =>
    rcases List.mem_cons.mp hc with h | h
    · subst h
      exact ⟨_, @registerList_lookup_mono (db.register_or_get c lvl).2 lvl cs
        c _ (register_lookup_self db c lvl)⟩
    · exact ih h

lemma registerList_allKeys {P : List Dy → Prop} {db : NodeDataBase}
    {lvl : Nat} {cs : List (List Dy)} (hP : AllKeysP P db)
    (hcs : ∀ c ∈ cs, P c) : AllKeysP P (registerList db lvl cs).2 := by
  induction cs generalizing db with
  | nil => exact hP
  | cons c cs ih =>
    exact ih (register_allKeys hP (hcs c (by simp)))
      fun c hc => hcs c (by simp [hc])

lemma registerList_inv {db : NodeDataBase} {lvl : Nat}
    {cs : List (List Dy)} (h : NodeInv db) :
    NodeInv (registerList db lvl cs).2 := by
  induction cs generalizing db with
  | nil => exact h
  | cons c cs ih => exact ih (register_inv h)

lemma registerList_nodes_grow {db : NodeDataBase} {lvl : Nat}
    {cs : List (List Dy)} :
    db.nodes <+: (registerList db lvl cs).2.nodes := by
  induction cs generalizing db with
  | nil => exact List.prefix_refl _
  | cons c cs ih => exact (register_nodes_grow db c lvl).trans ih

lemma registerList_levels_ne {db : NodeDataBase} {lvl k : Nat}
    {cs : List (List Dy)} (h : k ≠ lvl) :
    (registerList db lvl cs).2.levels.getD k [] = db.levels.getD k [] := by
  induction cs generalizing db with
  | nil => rfl
  | cons c cs ih => exact ih.trans (register_levels_ne h)

lemma prefix_getD {l₁ l₂ : List α} (h : l₁ <+: l₂) (d : α) {i : Nat}
    (hi : i < l₁.length) : l₂.getD i d = l₁.getD i d := by
  obtain ⟨t, rfl⟩ := h
  simp [List.getD_eq_getElem?_getD, List.getElem?_append, hi]

lemma registerList_coords {db : NodeDataBase} {lvl : Nat}
    {cs : List (List Dy)} (h : NodeInv db) :
    List.Forall₂
      (fun i c => i < (registerList db lvl cs).2.nodes.length
        ∧ ((registerList db lvl cs).2.nodes.getD i default).coords = c)
      (registerList db lvl cs).1 cs := by
  induction cs generalizing db with
  | nil => simp [registerList_nil]
  | cons c cs ih =>
    rw [registerList_cons]
    constructor
    · obtain ⟨h1, h2⟩ := @register_fst_spec db c lvl h
      have hpre : (db.register_or_get c lvl).2.nodes
          <+: (registerList (db.register_or_get c lvl).2 lvl cs).2.nodes :=
        registerList_nodes_grow
      refine ⟨lt_of_lt_of_le h1 hpre.length_le, ?_⟩
      rw [prefix_getD hpre default h1, h2]
    · exact ih (register_inv h)

lemma registerList_count {pres : List Dy → Bool} {lvl : Nat} :
    ∀ (cs : List (List Dy)) (db : NodeDataBase) (acc : List (List Dy)),
    (∀ c ∈ cs, (lookupCoords db.index c).isSome = (pres c || acc.contains c)) →
    ((registerList db lvl cs).2.levels.getD lvl []).length
      = (db.levels.getD lvl []).length + countNew pres cs acc := by
  intro cs
  induction cs with
  | nil => intro db acc _; simp [registerList_nil, countNew]
  | cons c cs ih =>
    intro db acc hpres
    have hc := hpres c (by simp)
    rw [registerList_cons]
    by_cases hb : (pres c || acc.contains c) = true
    · rw [hb] at hc
      obtain ⟨i, hi⟩ := Option.isSome_iff_exists.mp hc
      have hdb : db.register_or_get c lvl = (i, db) := by
        simp [NodeDataBase.register_or_get, hi]
      rw [hdb]
      have := ih db acc fun c' hc' => hpres c' (by simp [hc'])
      simp only [countNew, hb, if_true]
      exact this
    · have hfalse : (pres c || acc.contains c) = false := by
        simpa using hb
      rw [hfalse] at hc
      have hnone : lookupCoords db.index c = none := by
        cases hl : lookupCoords db.index c with
        | none => rfl
        | some i => rw [hl] at hc; simp at hc
      have hdb : db.register_or_get c lvl
          = (db.nodes.length,
             { nodes := db.nodes ++ [⟨c, lvl, none⟩],
               index := (c, db.nodes.length) :: db.index,
               levels := addToLevel db.levels lvl db.nodes.length }) := by
        simp [NodeDataBase.register_or_get, hnone]
      rw [hdb]
      have hstep := ih
        ({ nodes := db.nodes ++ [⟨c, lvl, none⟩],
           index := (c, db.nodes.length) :: db.index,
           levels := addToLevel db.levels lvl db.nodes.length } : NodeDataBase)
        (c :: acc) ?_
      · rw [hstep]
        show ((addToLevel db.levels lvl db.nodes.length).getD lvl []).length
            + countNew pres cs (c :: acc) = _
        rw [addToLevel_getD_same]
        simp only [countNew, hfalse, Bool.false_eq_true, if_false]
        simp
        omega
      · intro c' hc'
        show (lookupCoords ((c, db.nodes.length) :: db.index) c').isSome = _
        by_cases hcc : c = c'
        · subst hcc
          simp [lookupCoords, List.contains_cons]
        · simp only [lookupCoords, if_neg hcc]
          rw [hpres c' (by simp [hc'])]
          have hne : decide (c' = c) = false :=
            decide_eq_false fun h => hcc h.symm
          simp [List.contains_cons, hne]

/-! ## Bridging the grid operations to flat registration sequences -/

lemma map_eq_of_forall₂ {f : α → β} {l₁ : List α} {l₂ : List β}
    (h : List.Forall₂ (fun i c => f i = c) l₁ l₂) : l₁.map f = l₂ := by
  induction h with
  | nil => rfl
  | cons hd _ ih => simp [ih, hd]

lemma construct_ndb (axes : List (List Dy)) :
    (Grid.construct axes).ndb
      = (registerList NodeDataBase.empty 0 (allWindowCoords axes)).2 := by
  show (mapThread
      (fun db idx => mapThread
        (fun (db2 : NodeDataBase) off =>
          db2.register_or_get (windowCorner axes idx off) 0)
        db (voffs axes.length))
      NodeDataBase.empty
      (cartProd (axes.map fun a => List.range (a.length - 1)))).2 = _
  have h1 : (fun (db : NodeDataBase) idx => mapThread
        (fun (db2 : NodeDataBase) off =>
          db2.register_or_get (windowCorner axes idx off) 0)
        db (voffs axes.length))
      = fun (db : NodeDataBase) idx =>
        mapThread (fun (d : NodeDataBase) c => d.register_or_get c 0) db
          ((voffs axes.length).map fun off => windowCorner axes idx off) := by
    funext db idx
    exact mapThread_comp (h := fun (d : NodeDataBase) c => d.register_or_get c 0)
      (g := fun off => windowCorner axes idx off)
  rw [h1]
  exact mapThread_nested_snd

lemma construct_cells_length (axes : List (List Dy)) :
    (Grid.construct axes).cells.length
      = (cartProd (axes.map fun a => List.range (a.length - 1))).length := by
  show ((mapThread _ _ _).1.map _).length = _
  rw [List.length_map, mapThread_fst_length]

lemma make_childs_ndb (g : Grid) (cidx : Nat) :
    (g.make_childs cidx).2.ndb
      = (registerList g.ndb ((g.cells.getD cidx default).level + 1)
          (allChildCoords g.dim (g.cellMins cidx) (g.cellMaxs cidx))).2 := by
  show (mapThread
      (fun db joff => mapThread
        (fun (db2 : NodeDataBase) ioff =>
          db2.register_or_get
            (childCorner (g.cellMins cidx) (g.cellMaxs cidx) joff ioff)
            ((g.cells.getD cidx default).level + 1))
        db (voffs g.dim))
      g.ndb (voffs g.dim)).2 = _
  have h1 : (fun (db : NodeDataBase) joff => mapThread
        (fun (db2 : NodeDataBase) ioff =>
          db2.register_or_get
            (childCorner (g.cellMins cidx) (g.cellMaxs cidx) joff ioff)
            ((g.cells.getD cidx default).level + 1))
        db (voffs g.dim))
      = fun (db : NodeDataBase) joff =>
        mapThread (fun (d : NodeDataBase) c =>
            d.register_or_get c ((g.cells.getD cidx default).level + 1)) db
          ((voffs g.dim).map fun ioff =>
            childCorner (g.cellMins cidx) (g.cellMaxs cidx) joff ioff) := by
    funext db joff
    exact mapThread_comp (h := fun (d : NodeDataBase) c =>
        d.register_or_get c ((g.cells.getD cidx default).level + 1))
      (g := fun ioff =>
        childCorner (g.cellMins cidx) (g.cellMaxs cidx) joff ioff)
  rw [h1]
  exact mapThread_nested_snd

lemma make_childs_fst_length (g : Grid) (cidx : Nat) :
    (g.make_childs cidx).1.length = (voffs g.dim).length := by
  show ((List.range (mapThread _ _ _).1.length).map _).length = _
  rw [List.length_map, List.length_range, mapThread_fst_length]

lemma mapThread_fst_getD_zero {f : σ → α → β × σ} {s : σ} {a : α}
    {l : List α} {d : β} :
    (mapThread f s (a :: l)).1.getD 0 d = (f s a).1 :=
  rfl

lemma make_childs_fst (g : Grid) (cidx : Nat) :
    (g.make_childs cidx).1
      = (List.range (voffs g.dim).length).map fun j => g.cells.length + j := by
  show (List.range (mapThread _ _ _).1.length).map _ = _
  rw [mapThread_fst_length]

lemma construct_cells_getD_zero (axes : List (List Dy))
    (hne : cartProd (axes.map fun a => List.range (a.length - 1)) ≠ []) :
    (Grid.construct axes).cells.getD 0 default
      = mkLevelCell 0 none (registerList NodeDataBase.empty 0
          ((voffs axes.length).map fun off => windowCorner axes
            ((cartProd (axes.map fun a => List.range (a.length - 1))).headD
              []) off)).1 := by
  show ((mapThread
      (fun db idx => mapThread
        (fun (db2 : NodeDataBase) off =>
          db2.register_or_get (windowCorner axes idx off) 0)
        db (voffs axes.length))
      NodeDataBase.empty
      (cartProd (axes.map fun a => List.range (a.length - 1)))).1.map
        (mkLevelCell 0 none)).getD 0 default = _
  obtain ⟨w0, ws, hL⟩ :
      ∃ w0 ws, cartProd (axes.map fun a => List.range (a.length - 1))
        = w0 :: ws := by
    cases hq : cartProd (axes.map fun a => List.range (a.length - 1)) with
    | nil => exact absurd hq hne
    | cons a b => exact ⟨a, b, rfl⟩
  rw [hL, mapThread_cons]
  simp only [List.map_cons, List.getD_cons_zero, List.headD_cons]
  have := mapThread_comp
    (h := fun (d : NodeDataBase) c => d.register_or_get c 0)
    (g := fun off => windowCorner axes w0 off)
    (s := NodeDataBase.empty) (l := voffs axes.length)
  rw [registerList, ← this]

lemma make_childs_cell_first (g : Grid) (cidx : Nat)
    (hne : voffs g.dim ≠ []) :
    (g.make_childs cidx).2.cells.getD g.cells.length default
      = mkLevelCell ((g.cells.getD cidx default).level + 1) (some cidx)
          (registerList g.ndb ((g.cells.getD cidx default).level + 1)
            ((voffs g.dim).map fun ioff =>
              childCorner (g.cellMins cidx) (g.cellMaxs cidx)
                ((voffs g.dim).headD []) ioff)).1 := by
  show ((g.cells.set cidx _ ++ (mapThread
      (fun db joff => mapThread
        (fun (db2 : NodeDataBase) ioff =>
          db2.register_or_get
            (childCorner (g.cellMins cidx) (g.cellMaxs cidx) joff ioff)
            ((g.cells.getD cidx default).level + 1))
        db (voffs g.dim))
      g.ndb (voffs g.dim)).1.map
        (mkLevelCell ((g.cells.getD cidx default).level + 1)
          (some cidx))).getD g.cells.length default) = _
  obtain ⟨j0, js, hV⟩ : ∃ j0 js, voffs g.dim = j0 :: js := by
    cases hq : voffs g.dim with
    | nil => exact absurd hq hne
    | cons a b => exact ⟨a, b, rfl⟩
  rw [hV, List.getD_eq_getElem?_getD, List.getElem?_append_right
    (by simp : (g.cells.set cidx _).length ≤ g.cells.length)]
  simp only [List.length_set, Nat.sub_self]
  rw [mapThread_cons]
  simp only [List.map_cons, List.getElem?_cons_zero, Option.getD_some,
    List.headD_cons]
  have := mapThread_comp
    (h := fun (d : NodeDataBase) c => d.register_or_get c
      ((g.cells.getD cidx default).level + 1))
    (g := fun ioff => childCorner (g.cellMins cidx) (g.cellMaxs cidx) j0 ioff)
    (s := g.ndb) (l := j0 :: js)
  simp only [List.map_cons] at this
  rw [registerList, ← this]

lemma emptyInv : NodeInv NodeDataBase.empty :=
  fun p hp => absurd hp (List.not_mem_nil p)

lemma emptyAllKeys (P : List Dy → Prop) : AllKeysP P NodeDataBase.empty :=
  fun p hp => absurd hp (List.not_mem_nil p)

lemma allKeysP_imp {P Q : List Dy → Prop} {db : NodeDataBase}
    (h : ∀ c, P c → Q c) (hP : AllKeysP P db) : AllKeysP Q db :=
  fun p hp => h p.1 (hP p hp)

lemma construct_vertex_coords_zero (axes : List (List Dy))
    (hne : cartProd (axes.map fun a => List.range (a.length - 1)) ≠ []) :
    (Grid.construct axes).get_vertex_coords 0
      = (voffs axes.length).map fun off => windowCorner axes
          ((cartProd (axes.map fun a => List.range (a.length - 1))).headD [])
          off := by
  obtain ⟨w0, ws, hL⟩ :
      ∃ w0 ws, cartProd (axes.map fun a => List.range (a.length - 1))
        = w0 :: ws := by
    cases hq : cartProd (axes.map fun a => List.range (a.length - 1)) with
    | nil => exact absurd hq hne
    | cons a b => exact ⟨a, b, rfl⟩
  rw [Grid.get_vertex_coords, construct_cells_getD_zero axes hne, hL]
  simp only [List.headD_cons, mkLevelCell]
  rw [construct_ndb axes, allWindowCoords, hL]
  simp only [List.flatMap_cons, registerList_append]
  apply map_eq_of_forall₂
  refine List.Forall₂.imp ?_
    (@registerList_coords NodeDataBase.empty 0
      ((voffs axes.length).map fun off => windowCorner axes w0 off) emptyInv)
  intro i c hic
  obtain ⟨hb, hc⟩ := hic
  rw [prefix_getD registerList_nodes_grow default hb, hc]

lemma make_childs_vertex_coords_first (g : Grid) (cidx : Nat)
    (hne : voffs g.dim ≠ []) (hinv : NodeInv g.ndb) :
    (g.make_childs cidx).2.get_vertex_coords g.cells.length
      = (voffs g.dim).map fun ioff =>
          childCorner (g.cellMins cidx) (g.cellMaxs cidx)
            ((voffs g.dim).headD []) ioff := by
  obtain ⟨j0, js, hV⟩ : ∃ j0 js, voffs g.dim = j0 :: js := by
    cases hq : voffs g.dim with
    | nil => exact absurd hq hne
    | cons a b => exact ⟨a, b, rfl⟩
  rw [Grid.get_vertex_coords, make_childs_cell_first g cidx hne, hV]
  simp only [List.headD_cons, mkLevelCell]
  rw [make_childs_ndb g cidx, allChildCoords, hV]
  simp only [List.flatMap_cons, registerList_append]
  apply map_eq_of_forall₂
  refine List.Forall₂.imp ?_
    (@registerList_coords g.ndb ((g.cells.getD cidx default).level + 1)
      ((j0 :: js).map fun ioff =>
        childCorner (g.cellMins cidx) (g.cellMaxs cidx) j0 ioff) hinv)
  intro i c hic
  obtain ⟨hb, hc⟩ := hic
  rw [prefix_getD registerList_nodes_grow default hb, hc]

/-! ## Concrete facts about the 3D test grid -/

lemma grid3d_dim : grid3d.dim = 3 := rfl

lemma grid3d_inv : NodeInv grid3d.ndb := by
  unfold grid3d
  rw [construct_ndb axes3]
  exact registerList_inv emptyInv

lemma windowCorner_expBound {axes : List (List Dy)}
    (hax : ∀ a ∈ axes, ∀ d ∈ a, d.exp = 0) (idx off : List Nat) :
    expBound 0 (windowCorner axes idx off) = true := by
  rw [expBound, List.all_eq_true]
  intro d hd
  rw [windowCorner] at hd
  obtain ⟨t, ht, rfl⟩ := List.mem_map.mp hd
  obtain ⟨t1, t2⟩ := t
  have ht1 : t1 ∈ axes := (List.of_mem_zip ht).1
  cases hg : t1[t2.1 + t2.2]? with
  | none => simp [List.getD_eq_getElem?_getD, hg, Dy.ofInt]
  | some v =>
    have hv : v ∈ t1 := List.getElem?_mem hg
    simp [List.getD_eq_getElem?_getD, hg, hax t1 ht1 v hv]

lemma allWindowCoords_expBound {axes : List (List Dy)}
    (hax : ∀ a ∈ axes, ∀ d ∈ a, d.exp = 0) :
    ∀ c ∈ allWindowCoords axes, expBound 0 c = true := by
  intro c hc
  rw [allWindowCoords] at hc
  obtain ⟨idx, hidx, hcm⟩ := List.mem_flatMap.mp hc
  obtain ⟨off, hoff, rfl⟩ := List.mem_map.mp hcm
  exact windowCorner_expBound hax idx off

lemma grid3d_allKeys : AllKeysP (fun c => expBound 0 c = true) grid3d.ndb := by
  unfold grid3d
  rw [construct_ndb axes3]
  exact registerList_allKeys (emptyAllKeys _)
    (allWindowCoords_expBound (by decide))

lemma grid3d_cell0_level : (grid3d.cells.getD 0 default).level = 0 := by
  unfold grid3d
  rw [construct_cells_getD_zero axes3 (by decide)]
  rfl

lemma grid3d_mins : grid3d.cellMins 0
    = [Dy.ofInt (-4), Dy.ofInt (-4), Dy.ofInt (-4)] := by
  unfold grid3d
  rw [Grid.cellMins, construct_vertex_coords_zero axes3 (by decide)]
  decide

lemma grid3d_maxs : grid3d.cellMaxs 0
    = [Dy.ofInt (-3), Dy.ofInt (-3), Dy.ofInt (-3)] := by
  unfold grid3d
  rw [Grid.cellMaxs, construct_vertex_coords_zero axes3 (by decide)]
  decide

lemma grid3d_bucket1 : grid3d.ndb.levels.getD 1 [] = [] := by
  unfold grid3d
  rw [construct_ndb axes3, registerList_levels_ne (by decide)]
  rfl

lemma grid3d_hpres : ∀ c ∈ allChildCoords 3
      [Dy.ofInt (-4), Dy.ofInt (-4), Dy.ofInt (-4)]
      [Dy.ofInt (-3), Dy.ofInt (-3), Dy.ofInt (-3)],
    (lookupCoords grid3d.ndb.index c).isSome
      = (expBound 0 c || ([] : List (List Dy)).contains c) := by
  intro c hc
  rw [show ([] : List (List Dy)).contains c = false from rfl, Bool.or_false]
  by_cases hP : expBound 0 c = true
  · rw [hP]
    have hsub : ∀ x ∈ allChildCoords 3
        [Dy.ofInt (-4), Dy.ofInt (-4), Dy.ofInt (-4)]
        [Dy.ofInt (-3), Dy.ofInt (-3), Dy.ofInt (-3)],
        expBound 0 x = true → x ∈ allWindowCoords axes3 := by decide
    have hmem := hsub c hc hP
    have hdb : grid3d.ndb
        = (registerList NodeDataBase.empty 0 (allWindowCoords axes3)).2 :=
      construct_ndb axes3
    rw [hdb]
    obtain ⟨i, hi⟩ := registerList_present hmem
    rw [hi]
    rfl
  · have hPf : expBound 0 c = false := by simpa using hP
    rw [hPf, lookup_none_of_allKeys grid3d_allKeys (by simp [hPf])]
    rfl

lemma grid3d_levels1 :
    ((grid3d.make_childs 0).2.ndb.levels.getD 1 []).length = 19 := by
  rw [make_childs_ndb grid3d 0, grid3d_cell0_level, grid3d_dim,
    grid3d_mins, grid3d_maxs]
  simp only [Nat.zero_add]
  rw [registerList_count _ _ [] grid3d_hpres, grid3d_bucket1]
  decide

lemma grid3d_first_child_handle :
    (grid3d.make_childs 0).1.getD 0 0 = grid3d.cells.length := by
  rw [make_childs_fst]
  have h8 : (voffs grid3d.dim).length = 8 := by decide
  rw [h8]
  simp [List.getD_eq_getElem?_getD]

/-! ## Concrete facts about the once-subdivided 3D test grid -/

lemma grid3dc_ndb : (grid3d.make_childs 0).2.ndb
    = (registerList grid3d.ndb 1 (allChildCoords 3
        [Dy.ofInt (-4), Dy.ofInt (-4), Dy.ofInt (-4)]
        [Dy.ofInt (-3), Dy.ofInt (-3), Dy.ofInt (-3)])).2 := by
  rw [make_childs_ndb grid3d 0, grid3d_cell0_level, grid3d_dim,
    grid3d_mins, grid3d_maxs]

lemma grid3dc_inv : NodeInv (grid3d.make_childs 0).2.ndb := by
  rw [grid3dc_ndb]
  exact registerList_inv grid3d_inv

lemma grid3dc_allKeys :
    AllKeysP (fun c => expBound 1 c = true) (grid3d.make_childs 0).2.ndb := by
  rw [grid3dc_ndb]
  refine registerList_allKeys (allKeysP_imp ?_ grid3d_allKeys) (by decide)
  intro c h
  rw [expBound, List.all_eq_true] at h ⊢
  intro d hd
  have := h d hd
  simp at this ⊢
  omega

lemma grid3dc_dim : (grid3d.make_childs 0).2.dim = 3 := rfl

lemma grid3dc_cell_level :
    ((grid3d.make_childs 0).2.cells.getD grid3d.cells.length default).level + 1
      = 2 := by
  rw [make_childs_cell_first grid3d 0 (by decide), grid3d_cell0_level]
  rfl

lemma grid3dc_mins : (grid3d.make_childs 0).2.cellMins grid3d.cells.length
    = [Dy.ofInt (-4), Dy.ofInt (-4), Dy.ofInt (-4)] := by
  rw [Grid.cellMins,
    make_childs_vertex_coords_first grid3d 0 (by decide) grid3d_inv,
    grid3d_dim, grid3d_mins, grid3d_maxs]
  decide

lemma grid3dc_maxs : (grid3d.make_childs 0).2.cellMaxs grid3d.cells.length
    = [(⟨-7, 1⟩ : Dy), ⟨-7, 1⟩, ⟨-7, 1⟩] := by
  rw [Grid.cellMaxs,
    make_childs_vertex_coords_first grid3d 0 (by decide) grid3d_inv,
    grid3dc_dim, grid3d_dim, grid3d_mins, grid3d_maxs]
  decide

lemma grid3d_bucket2 : grid3d.ndb.levels.getD 2 [] = [] := by
  unfold grid3d
  rw [construct_ndb axes3, registerList_levels_ne (by decide)]
  rfl

lemma grid3dc_bucket2 : (grid3d.make_childs 0).2.ndb.levels.getD 2 [] = [] := by
  rw [grid3dc_ndb, registerList_levels_ne (by decide)]
  exact grid3d_bucket2

lemma grid3dc_hpres : ∀ c ∈ allChildCoords 3
      [Dy.ofInt (-4), Dy.ofInt (-4), Dy.ofInt (-4)]
      [(⟨-7, 1⟩ : Dy), ⟨-7, 1⟩, ⟨-7, 1⟩],
    (lookupCoords (grid3d.make_childs 0).2.ndb.index c).isSome
      = (expBound 1 c || ([] : List (List Dy)).contains c) := by
  intro c hc
  rw [show ([] : List (List Dy)).contains c = false from rfl, Bool.or_false]
  by_cases hP : expBound 1 c = true
  · rw [hP]
    have hsub : ∀ x ∈ allChildCoords 3
        [Dy.ofInt (-4), Dy.ofInt (-4), Dy.ofInt (-4)]
        [(⟨-7, 1⟩ : Dy), ⟨-7, 1⟩, ⟨-7, 1⟩],
        expBound 1 x = true → x ∈ allChildCoords 3
          [Dy.ofInt (-4), Dy.ofInt (-4), Dy.ofInt (-4)]
          [Dy.ofInt (-3), Dy.ofInt (-3), Dy.ofInt (-3)] := by decide
    rw [grid3dc_ndb]
    obtain ⟨i, hi⟩ := registerList_present (hsub c hc hP)
    rw [hi]
    rfl
  · have hPf : expBound 1 c = false := by simpa using hP
    rw [hPf, lookup_none_of_allKeys grid3dc_allKeys (by simp [hPf])]
    rfl

lemma grid3dc_levels2 :
    ((((grid3d.make_childs 0).2).make_childs grid3d.cells.length).2.ndb.levels.getD
      2 []).length = 19 := by
  rw [make_childs_ndb _ grid3d.cells.length, grid3dc_cell_level, grid3dc_dim,
    grid3dc_mins, grid3dc_maxs]
  rw [registerList_count _ _ [] grid3dc_hpres, grid3dc_bucket2]
  decide

lemma links_aux (cs : List Cell) (cidx : Nat) (h : cidx < cs.length)
    (cell : Cell) (ids : List Nat) (lvl : Nat) (vlists : List (List Nat))
    (hids : ids = (List.range vlists.length).map fun j => cs.length + j) :
    (∀ k ∈ ids, (((cs.set cidx { cell with child_cells := ids })
        ++ vlists.map (mkLevelCell lvl (some cidx))).getD k
          default).parent_cell = some cidx)
    ∧ (((cs.set cidx { cell with child_cells := ids })
        ++ vlists.map (mkLevelCell lvl (some cidx))).getD cidx
          default).child_cells = ids := by
  constructor
  · intro k hk
    rw [hids] at hk
    obtain ⟨j, hj, rfl⟩ := List.mem_map.mp hk
    rw [List.mem_range] at hj
    rw [List.getD_eq_getElem?_getD, List.getElem?_append_right
      (by simp : (cs.set cidx _).length ≤ cs.length + j)]
    simp only [List.length_set, Nat.add_sub_cancel_left, List.getElem?_map]
    rw [List.getElem?_eq_getElem hj]
    rfl
  · rw [List.getD_eq_getElem?_getD, List.getElem?_append,
      if_pos (by simpa using h),
      List.getElem?_set_eq_of_lt _ (by simpa using h)]
    rfl

/-- C1. `register_or_get` deduplicates by coordinate: registering the same
coordinate vector at the same level a second time returns the identical node
handle and leaves the database unchanged, so there is at most one node per
distinct coordinate (per level in particular), matched by exact equality. -/
theorem register_or_get_idem (db : NodeDataBase) (coords : List Dy)
    (level : Nat) :
    (db.register_or_get coords level).2.register_or_get coords level
      = ((db.register_or_get coords level).1,
         (db.register_or_get coords level).2) := by
  unfold NodeDataBase.register_or_get
  cases h : lookupCoords db.index coords with
  | some nid => simp [h]
  | none => simp [h, lookupCoords]

/-- C2. Constructing a Grid from the 2D structured mesh given by
`linspace(-4, 4, 9)` on both axes ("ij" indexing) produces exactly 81 nodes
in NodeDatabase level 0 and exactly 64 level-0 cells. -/
theorem grid2d_construction_counts :
    (grid2d.ndb.levels.getD 0 []).length = 81
    ∧ (grid2d.levels.getD 0 []).length = 64
    ∧ grid2d.cells.length = 64 := by
  decide

/-- C3. On the 2D 9-by-9 grid, `make_childs()` on the first level-0 cell
returns exactly 4 child cells and registers exactly 5 new nodes at
NodeDatabase level 1 (the 4 edge midpoints and the center). -/
theorem grid2d_first_subdivision :
    (grid2d.make_childs 0).1.length = 4
    ∧ ((grid2d.make_childs 0).2.ndb.levels.getD 1 []).length = 5 := by
  decide

/-- C4. The first child produced by subdividing the first level-0 cell of the
2D 9-by-9 grid has `get_vertex_coords()` equal to exactly
`[[-4, -4], [-4, -3.5], [-3.5, -4], [-3.5, -3.5]]` (with `-3.5 = -7 / 2 ^ 1`)
in the fixed hypercube bit-pattern vertex order. -/
theorem grid2d_first_child_vertex_coords :
    (grid2d.make_childs 0).2.get_vertex_coords
        ((grid2d.make_childs 0).1.getD 0 0)
      = [[⟨-4, 0⟩, ⟨-4, 0⟩], [⟨-4, 0⟩, ⟨-7, 1⟩],
         [⟨-7, 1⟩, ⟨-4, 0⟩], [⟨-7, 1⟩, ⟨-7, 1⟩]] := by
  decide

/-- C5. On the 3D 9-by-9-by-9 grid, `make_childs()` on the first level-0 cell
registers exactly 19 new nodes at NodeDatabase level 1, returns exactly 8
child cells, and the first child's corner coordinates are exactly
`[[-4,-4,-4], [-4,-4,-3.5], [-4,-3.5,-4], [-4,-3.5,-3.5], [-3.5,-4,-4],
[-3.5,-4,-3.5], [-3.5,-3.5,-4], [-3.5,-3.5,-3.5]]` (with `-3.5 = -7 / 2 ^ 1`). -/
theorem grid3d_first_subdivision :
    (grid3d.make_childs 0).1.length = 8
    ∧ ((grid3d.make_childs 0).2.ndb.levels.getD 1 []).length = 19
    ∧ (grid3d.make_childs 0).2.get_vertex_coords
        ((grid3d.make_childs 0).1.getD 0 0)
      = [[⟨-4, 0⟩, ⟨-4, 0⟩, ⟨-4, 0⟩], [⟨-4, 0⟩, ⟨-4, 0⟩, ⟨-7, 1⟩],
         [⟨-4, 0⟩, ⟨-7, 1⟩, ⟨-4, 0⟩], [⟨-4, 0⟩, ⟨-7, 1⟩, ⟨-7, 1⟩],
         [⟨-7, 1⟩, ⟨-4, 0⟩, ⟨-4, 0⟩], [⟨-7, 1⟩, ⟨-4, 0⟩, ⟨-7, 1⟩],
         [⟨-7, 1⟩, ⟨-7, 1⟩, ⟨-4, 0⟩], [⟨-7, 1⟩, ⟨-7, 1⟩, ⟨-7, 1⟩]] := by
  refine ⟨?_, grid3d_levels1, ?_⟩
  · rw [make_childs_fst_length]
    decide
  · rw [grid3d_first_child_handle,
      make_childs_vertex_coords_first grid3d 0 (by decide) grid3d_inv,
      grid3d_dim, grid3d_mins, grid3d_maxs]
    decide

/-- C6. For every cell on which `make_childs()` is called, every child in the
returned sequence has `parent_cell` equal to that cell, and the cell's
`child_cells` equals exactly the returned ordered sequence of children. -/
theorem make_childs_parent_child_links (g : Grid) (cidx : Nat)
    (h : cidx < g.cells.length) :
    (∀ k ∈ (g.make_childs cidx).1,
      ((g.make_childs cidx).2.cells.getD k default).parent_cell = some cidx)
    ∧ ((g.make_childs cidx).2.cells.getD cidx default).child_cells
        = (g.make_childs cidx).1 := by
  refine links_aux g.cells cidx h (g.cells.getD cidx default) _
    ((g.cells.getD cidx default).level + 1)
    (mapThread
      (fun db joff => mapThread
        (fun (db2 : NodeDataBase) ioff =>
          db2.register_or_get
            (childCorner (g.cellMins cidx) (g.cellMaxs cidx) joff ioff)
            ((g.cells.getD cidx default).level + 1))
        db (voffs g.dim))
      g.ndb (voffs g.dim)).1 rfl

/-- C6 witness: the links hold for the single cell of a concrete 1D grid. -/
theorem make_childs_parent_child_links_witness :
    0 < (Grid.construct [[Dy.ofInt 0, Dy.ofInt 1]]).cells.length
    ∧ ((∀ k ∈ ((Grid.construct [[Dy.ofInt 0, Dy.ofInt 1]]).make_childs 0).1,
        (((Grid.construct [[Dy.ofInt 0, Dy.ofInt 1]]).make_childs
          0).2.cells.getD k default).parent_cell = some 0)
      ∧ (((Grid.construct [[Dy.ofInt 0, Dy.ofInt 1]]).make_childs
          0).2.cells.getD 0 default).child_cells
        = ((Grid.construct [[Dy.ofInt 0, Dy.ofInt 1]]).make_childs 0).1) :=
  ⟨by decide, make_childs_parent_child_links
    (Grid.construct [[Dy.ofInt 0, Dy.ofInt 1]]) 0 (by decide)⟩

/-- C7. On the 2D 9-by-9 grid with the circular boundary function applied and
cells classified by homogeneity, exactly 12 level-0 cells are inhomogeneous,
the inner boundary has shape (2, 5) and the outer boundary shape (2, 16);
after one `divide_boundary_cells()` round with re-application and
re-classification, the shapes become (2, 12) and (2, 20). -/
theorem refinement_roundtrip :
    (refined0.inhomogeneous_cells.getD 0 []).length = 12
    ∧ refined0.get_inner_boundary.length = 5
    ∧ (∀ p ∈ refined0.get_inner_boundary, p.length = 2)
    ∧ refined0.get_outer_boundary.length = 16
    ∧ (∀ p ∈ refined0.get_outer_boundary, p.length = 2)
    ∧ refined1.get_inner_boundary.length = 12
    ∧ (∀ p ∈ refined1.get_inner_boundary, p.length = 2)
    ∧ refined1.get_outer_boundary.length = 20
    ∧ (∀ p ∈ refined1.get_outer_boundary, p.length = 2) := by
  decide

/-- C8. `max_level` is 0 after Grid construction, and each
`divide_boundary_cells()` call increments `max_level` by exactly 1. -/
theorem max_level_invariant (axes : List (List Dy)) (g : Grid) :
    (Grid.construct axes).max_level = 0
    ∧ (g.divide_boundary_cells).max_level = g.max_level + 1 :=
  ⟨rfl, rfl⟩

/-- C9. Constructing a Grid from a malformed structured mesh — coordinate
arrays of non-matching lengths, or any axis with fewer than 2 points — fails
with the `InvalidGridInput` condition. -/
theorem malformed_mesh_rejected (axes : List (List Dy))
    (h : (∃ a ∈ axes, a.length < 2)
      ∨ ∃ a ∈ axes, ∃ b ∈ axes, a.length ≠ b.length) :
    Grid.construct_checked axes
      = Except.error GridError.InvalidGridInput := by
  have hv : validMeshInput axes = false := by
    by_contra hvt
    have hvt2 : validMeshInput axes = true := by
      cases hq : validMeshInput axes
      · exact absurd hq hvt
      · rfl
    rw [validMeshInput, Bool.and_eq_true, List.all_eq_true,
      List.all_eq_true] at hvt2
    obtain ⟨h1, h2⟩ := hvt2
    rcases h with ⟨a, ha, hlt⟩ | ⟨a, ha, b, hb, hne⟩
    · have := h1 a ha
      simp at this
      omega
    · have hA := h2 a ha
      have hB := h2 b hb
      simp at hA hB
      omega
  simp [Grid.construct_checked, hv]

/-- C9 witness: a one-point axis is rejected. -/
theorem malformed_mesh_rejected_witness :
    ((∃ a ∈ [[Dy.ofInt 0]], a.length < 2)
      ∨ ∃ a ∈ [[Dy.ofInt 0]], ∃ b ∈ [[Dy.ofInt 0]], a.length ≠ b.length)
    ∧ Grid.construct_checked [[Dy.ofInt 0]]
      = Except.error GridError.InvalidGridInput :=
  ⟨by decide, malformed_mesh_rejected _ (by decide)⟩

/-- C10. Subdividing the first child of the already-subdivided corner cell
introduces exactly as many new nodes at the next level as the first
subdivision did: 5 nodes at NodeDatabase level 2 in 2D (equalling the 5 at
level 1) and 19 at level 2 in 3D (equalling the 19 at level 1). -/
theorem second_subdivision_counts :
    (((grid2d.make_childs 0).2.make_childs
        ((grid2d.make_childs 0).1.getD 0 0)).2.ndb.levels.getD 2 []).length = 5
    ∧ ((grid2d.make_childs 0).2.ndb.levels.getD 1 []).length = 5
    ∧ (((grid3d.make_childs 0).2.make_childs
        ((grid3d.make_childs 0).1.getD 0 0)).2.ndb.levels.getD 2 []).length
      = 19
    ∧ ((grid3d.make_childs 0).2.ndb.levels.getD 1 []).length = 19 := by
  refine ⟨by decide, by decide, ?_, grid3d_levels1⟩
  rw [grid3d_first_child_handle]
  exact grid3dc_levels2

end Meshtools
